import Mathlib

/-!
Verification of the Obsidian AI Terminal plugin core against its specification.

The definitions below are a shallow embedding of the TypeScript source:

* the provider gateway, class AIService with static methods callGoogle,
  callOpenAI and callAnthropic (src/AIService.ts);
* the conversation session held by class TerminalView (src/TerminalView.ts):
  the attachments list, its deduplicating pinnedNotes getter, the chat
  history, findCommandBySlash, processCommand, the sendMessage handler,
  attachActiveNote, and createNoteFromResponse;
* the configuration data of main.ts (interfaces CustomCommand, Skill,
  PluginSettings and the DEFAULT_CUSTOM_COMMANDS constant).

Modelling conventions: JavaScript strings are modelled by String viewed as
its list of characters (indices count characters, not UTF-16 units, which
agrees on ASCII data); JavaScript string helpers (trim, slice, startsWith,
substring) are implemented below with the same semantics on the whitespace
set of Char.isWhitespace; an awaited HTTP exchange is a pure transport
function from the typed request a call builds to a typed response, and each
call also returns the list of outbound requests it issued; a thrown Error
and a returned failure are both the err constructor of CallResult, carrying
the message of the Error object.
-/

namespace ObsidianAITerminal

/-! ## JavaScript string helpers -/

/-- Model of JavaScript String.prototype.trim restricted to the ASCII
whitespace characters recognised by Char.isWhitespace, on character lists. -/
def jsTrimL (l : List Char) : List Char :=
  ((l.dropWhile Char.isWhitespace).reverse.dropWhile Char.isWhitespace).reverse

/-- Model of JavaScript String.prototype.trim. -/
def jsTrim (s : String) : String :=
  ⟨jsTrimL s.data⟩

/-- Model of JavaScript String.prototype.slice with one non-negative index
(drop the first n characters; an index past the end yields the empty
string). -/
def jsDrop (s : String) (n : Nat) : String :=
  ⟨s.data.drop n⟩

/-- Model of JavaScript String.prototype.substring(0, n). -/
def jsTake (s : String) (n : Nat) : String :=
  ⟨s.data.take n⟩

/-- Model of JavaScript String.prototype.startsWith. -/
def jsStartsWith (s pre : String) : Bool :=
  pre.data.isPrefixOf s.data

/-! ## Provider gateway: class AIService -/

/-- The result of one awaited AIService call: a resolved string, or a thrown
Error carrying its message. -/
inductive CallResult where
  | ok (text : String)
  | err (msg : String)
deriving DecidableEq

/-- One part of the request body callGoogle builds. -/
structure GeminiReqPart where
  text : String
deriving DecidableEq

/-- One content entry of the request body callGoogle builds. -/
structure GeminiReqContent where
  role : String
  parts : List GeminiReqPart
deriving DecidableEq

/-- The JSON body callGoogle posts. -/
structure GeminiReqBody where
  contents : List GeminiReqContent
deriving DecidableEq

/-- The outbound HTTP request callGoogle issues: URL, method, the two
headers, and the typed body (the source serialises it with JSON.stringify;
the model keeps it structured). -/
structure GoogleRequest where
  url : String
  method : String
  contentTypeHeader : String
  apiKeyHeader : String
  body : GeminiReqBody
deriving DecidableEq

/-- One part of a Gemini response candidate content. -/
structure GeminiRespPart where
  text : String
deriving DecidableEq

/-- The content field of a Gemini response candidate. -/
structure GeminiRespContent where
  parts : List GeminiRespPart
deriving DecidableEq

/-- One candidate of a Gemini response; content may be absent. -/
structure GeminiCandidate where
  content : Option GeminiRespContent
deriving DecidableEq

/-- The parsed JSON of a Gemini response; the candidates field may be
absent. -/
structure GeminiJson where
  candidates : Option (List GeminiCandidate)
deriving DecidableEq

/-- The response object requestUrl resolves to for callGoogle. -/
structure GeminiResponse where
  status : Nat
  text : String
  json : GeminiJson
deriving DecidableEq

/-- The request callGoogle constructs from its arguments. -/
def googleRequest (apiKey model systemPrompt userPrompt : String) : GoogleRequest :=
  { url := "https://generativelanguage.googleapis.com/v1beta/models/" ++ model
      ++ ":generateContent"
    method := "POST"
    contentTypeHeader := "application/json"
    apiKeyHeader := apiKey
    body := ⟨[⟨"user", [⟨systemPrompt ++ "\n\n" ++ userPrompt⟩]⟩]⟩ }

/-- AIService.callGoogle. The transport argument stands for the awaited
requestUrl call. Accessing candidates[0] of an empty array, or parts[0] of
an empty array, throws a TypeError in JavaScript; those branches are the
err results mentioning TypeError. -/
def callGoogle (apiKey model systemPrompt userPrompt : String)
    (transport : GoogleRequest → GeminiResponse) :
    CallResult × List GoogleRequest :=
  if apiKey = "" then (.err "Google API Key is missing", [])
  else
    let req := googleRequest apiKey model systemPrompt userPrompt
    let resp := transport req
    if resp.status ≠ 200 then
      (.err ("Gemini Error " ++ toString resp.status ++ ": " ++ resp.text), [req])
    else
      match resp.json.candidates with
      | none => (.err "AI returned no content", [req])
      | some [] => (.err "TypeError: cannot read content of undefined", [req])
      | some (c :: _) =>
        match c.content with
        | none => (.err "AI returned no content", [req])
        | some content =>
          match content.parts with
          | [] => (.err "TypeError: cannot read text of undefined", [req])
          | p :: _ => (.ok p.text, [req])

/-- One chat message of the request body callOpenAI builds. -/
structure OpenAIMessage where
  role : String
  content : String
deriving DecidableEq

/-- The JSON body callOpenAI posts. -/
structure OpenAIReqBody where
  model : String
  messages : List OpenAIMessage
deriving DecidableEq

/-- The outbound HTTP request callOpenAI issues. -/
structure OpenAIRequest where
  url : String
  method : String
  contentTypeHeader : String
  authHeader : String
  body : OpenAIReqBody
deriving DecidableEq

/-- One choice of an OpenAI response. -/
structure OpenAIChoice where
  message : OpenAIMessage
deriving DecidableEq

/-- The parsed JSON of an OpenAI response. -/
structure OpenAIJson where
  choices : List OpenAIChoice
deriving DecidableEq

/-- The response object requestUrl resolves to for callOpenAI. -/
structure OpenAIResponse where
  status : Nat
  text : String
  json : OpenAIJson
deriving DecidableEq

/-- The request callOpenAI constructs from its arguments. -/
def openaiRequest (apiKey model systemPrompt userPrompt : String) : OpenAIRequest :=
  { url := "https://api.openai.com/v1/chat/completions"
    method := "POST"
    contentTypeHeader := "application/json"
    authHeader := "Bearer " ++ apiKey
    body := ⟨model, [⟨"system", systemPrompt⟩, ⟨"user", userPrompt⟩]⟩ }

/-- AIService.callOpenAI. -/
def callOpenAI (apiKey model systemPrompt userPrompt : String)
    (transport : OpenAIRequest → OpenAIResponse) :
    CallResult × List OpenAIRequest :=
  if apiKey = "" then (.err "OpenAI API Key is missing", [])
  else
    let req := openaiRequest apiKey model systemPrompt userPrompt
    let resp := transport req
    if 400 ≤ resp.status then
      (.err ("OpenAI Error: " ++ toString resp.status), [req])
    else
      match resp.json.choices with
      | [] => (.err "TypeError: cannot read message of undefined", [req])
      | c :: _ => (.ok c.message.content, [req])

/-- One chat message of the request body callAnthropic builds. -/
structure AnthropicMessage where
  role : String
  content : String
deriving DecidableEq

/-- The JSON body callAnthropic posts. -/
structure AnthropicReqBody where
  model : String
  system : String
  messages : List AnthropicMessage
  maxTokens : Nat
deriving DecidableEq

/-- The outbound HTTP request callAnthropic issues. -/
structure AnthropicRequest where
  url : String
  method : String
  contentTypeHeader : String
  apiKeyHeader : String
  versionHeader : String
  body : AnthropicReqBody
deriving DecidableEq

/-- One content block of an Anthropic response. -/
structure AnthropicBlock where
  text : String
deriving DecidableEq

/-- The parsed JSON of an Anthropic response. -/
structure AnthropicJson where
  content : List AnthropicBlock
deriving DecidableEq

/-- The response object requestUrl resolves to for callAnthropic. -/
structure AnthropicResponse where
  status : Nat
  text : String
  json : AnthropicJson
deriving DecidableEq

/-- The request callAnthropic constructs from its arguments. -/
def anthropicRequest (apiKey model systemPrompt userPrompt : String) : AnthropicRequest :=
  { url := "https://api.anthropic.com/v1/messages"
    method := "POST"
    contentTypeHeader := "application/json"
    apiKeyHeader := apiKey
    versionHeader := "2023-06-01"
    body := ⟨model, systemPrompt, [⟨"user", userPrompt⟩], 4096⟩ }

/-- AIService.callAnthropic. -/
def callAnthropic (apiKey model systemPrompt userPrompt : String)
    (transport : AnthropicRequest → AnthropicResponse) :
    CallResult × List AnthropicRequest :=
  if apiKey = "" then (.err "Anthropic API Key is missing", [])
  else
    let req := anthropicRequest apiKey model systemPrompt userPrompt
    let resp := transport req
    if 400 ≤ resp.status then
      (.err ("Claude Error: " ++ toString resp.status), [req])
    else
      match resp.json.content with
      | [] => (.err "TypeError: cannot read text of undefined", [req])
      | b :: _ => (.ok b.text, [req])

/-! ## Configuration data: main.ts -/

/-- The provider identifiers occurring in the source: the TerminalView state
field currentProvider ranges over gemini, openai and anthropic, while the
CustomCommand interface of main.ts ranges over gemini, openai and claude. -/
inductive ProviderTag where
  | gemini
  | openai
  | anthropic
  | claude
deriving DecidableEq

/-- Interface CustomCommand of main.ts. -/
structure CustomCommand where
  id : String
  provider : ProviderTag
  modelId : String
  name : String
  command : String
  promptTemplate : String
deriving DecidableEq

/-- Interface Skill of main.ts. -/
structure Skill where
  id : String
  name : String
  description : String
  instructions : String
  enabled : Bool
deriving DecidableEq

/-- Interface PluginSettings of main.ts. -/
structure PluginSettings where
  googleApiKey : String
  openaiApiKey : String
  claudeApiKey : String
  defaultFolder : String
  customCommands : List CustomCommand
  skills : List Skill
deriving DecidableEq

/-- The call site in processCommand reads settings.anthropicApiKey, a
property the PluginSettings interface does not declare (it declares
claudeApiKey); at runtime that access yields undefined. Modelled as the
empty string, which like undefined is falsy for the key check of
callAnthropic. -/
def PluginSettings.anthropicApiKey (_ : PluginSettings) : String := ""

/-- PROMPT_TEMPLATES.basic of main.ts. -/
def promptTemplateBasic : String :=
  "You are an expert knowledge synthesizer. Output in Markdown."

/-- The DEFAULT_CUSTOM_COMMANDS constant of main.ts. -/
def DEFAULT_CUSTOM_COMMANDS : List CustomCommand :=
  [ { id := "1", provider := .gemini, modelId := "gemini-2.5-flash",
      name := "Gemini Flash", command := "/gemini",
      promptTemplate := promptTemplateBasic },
    { id := "2", provider := .openai, modelId := "gpt-4o-mini",
      name := "GPT-4o Mini", command := "/gpt",
      promptTemplate := promptTemplateBasic },
    { id := "3", provider := .claude, modelId := "claude-haiku-4-5-20251001",
      name := "Claude Haiku", command := "/claude",
      promptTemplate := promptTemplateBasic } ]

/-! ## Conversation session state: class TerminalView -/

/-- A vault file reference (the fields of TFile the view reads; content is
read from the vault at send time through a read function). -/
structure TFile where
  path : String
  basename : String
  extension : String
deriving DecidableEq

/-- The type discriminant of interface AttachmentItem. -/
inductive AttachType where
  | file
  | folder
deriving DecidableEq

/-- Interface AttachmentItem of TerminalView.ts. -/
structure AttachmentItem where
  type : AttachType
  name : String
  path : String
  items : List TFile
  count : Nat
deriving DecidableEq

/-- The role of a chat turn (interface ChatMessage): user, ai, or system
status. -/
inductive Role where
  | user
  | ai
  | system
deriving DecidableEq

/-- Interface ChatMessage of TerminalView.ts. -/
structure ChatMessage where
  role : Role
  content : String
deriving DecidableEq

/-- The mutable session state of a TerminalView instance: the attachments
list, the chat history, and the current provider and model defaults. -/
structure TerminalState where
  attachments : List AttachmentItem
  chatHistory : List ChatMessage
  currentProvider : ProviderTag
  currentModel : String
deriving DecidableEq

/-- One step of filling the JavaScript Map in the pinnedNotes getter:
Map.set keeps the position of the first insertion of a key and overwrites
its value. -/
def mapSet (m : List (String × TFile)) (k : String) (v : TFile) :
    List (String × TFile) :=
  if m.any (fun p => p.1 == k) then
    m.map (fun p => if p.1 == k then (k, v) else p)
  else m ++ [(k, v)]

/-- The pinnedNotes getter: every file of every attachment, deduplicated by
path through a Map keyed on file.path, in first-insertion order. -/
def pinnedNotes (atts : List AttachmentItem) : List TFile :=
  ((atts.foldl (fun m att => att.items.foldl (fun m f => mapSet m f.path f) m)
      []).map Prod.snd)

/-- The context block processCommand appends for one pinned note: a labelled
header and the first 10000 characters of the vault content of the file. -/
def noteBlock (read : String → String) (f : TFile) : String :=
  "\n=== NOTE: " ++ f.basename ++ " ===\n" ++ jsTake (read f.path) 10000 ++ "...\n"

/-- The accumulated contextText of processCommand. -/
def contextText (read : String → String) (atts : List AttachmentItem) : String :=
  (pinnedNotes atts).foldl (fun acc f => acc ++ noteBlock read f) ""

/-- The match test of findCommandBySlash: the input starts with the command
trigger followed by a space, or equals the trigger exactly. -/
def matchesCommand (cmd : CustomCommand) (input : String) : Bool :=
  jsStartsWith input (cmd.command ++ " ") || input == cmd.command

/-- TerminalView.findCommandBySlash: the first custom command whose trigger
matches the input. -/
def findCommandBySlash (cmds : List CustomCommand) (input : String) :
    Option CustomCommand :=
  cmds.find? (fun cmd => matchesCommand cmd input)

/-- The user message processCommand forwards when a custom command matched:
input.slice(command.length).trim() || input, that is the trimmed remainder
after the trigger, or the whole input when that remainder is empty. -/
def commandUserMessage (cmd : CustomCommand) (input : String) : String :=
  let r := jsTrim (jsDrop input cmd.command.length)
  if r = "" then input else r

/-- The hard coded default system prompt of processCommand. -/
def defaultSystemPrompt : String :=
  "You are an expert knowledge synthesizer. Output in Markdown."

/-- The provider, model, system prompt and user message processCommand
selects for one turn. -/
structure TurnParams where
  provider : ProviderTag
  modelId : String
  systemPrompt : String
  userMessage : String
deriving DecidableEq

/-- The per-turn parameter selection of processCommand: a matched custom
command substitutes its provider, model and prompt template and rewrites the
user message; otherwise the session defaults and the raw input are used. -/
def turnParams (settings : PluginSettings) (st : TerminalState) (input : String) :
    TurnParams :=
  match findCommandBySlash settings.customCommands input with
  | some cmd => ⟨cmd.provider, cmd.modelId, cmd.promptTemplate,
      commandUserMessage cmd input⟩
  | none => ⟨st.currentProvider, st.currentModel, defaultSystemPrompt, input⟩

/-- The full prompt processCommand sends: the attachment context followed by
the instruction. -/
def fullPromptOf (settings : PluginSettings) (st : TerminalState)
    (read : String → String) (input : String) : String :=
  "Context:\n" ++ contextText read st.attachments ++ "\n\nInstruction:\n"
    ++ (turnParams settings st input).userMessage

/-- One outbound provider call as observed at the AIService boundary. -/
structure ProviderCall where
  provider : ProviderTag
  apiKey : String
  modelId : String
  systemPrompt : String
  userPrompt : String
deriving DecidableEq

/-- The service oracle: the outcome of one awaited AIService call, given
provider, api key, model, system prompt and user prompt. -/
def AIServiceOracle : Type :=
  ProviderTag → String → String → String → String → CallResult

/-- The if/else provider dispatch of processCommand: gemini, openai and
anthropic each issue exactly one AIService call with the matching settings
key; any other provider value (the claude value of a custom command) matches
no branch, so no call is made and the response stays the empty string. -/
def dispatchProvider (svc : AIServiceOracle) (settings : PluginSettings)
    (provider : ProviderTag) (modelId systemPrompt prompt : String) :
    CallResult × List ProviderCall :=
  match provider with
  | .gemini =>
      (svc .gemini settings.googleApiKey modelId systemPrompt prompt,
       [⟨.gemini, settings.googleApiKey, modelId, systemPrompt, prompt⟩])
  | .openai =>
      (svc .openai settings.openaiApiKey modelId systemPrompt prompt,
       [⟨.openai, settings.openaiApiKey, modelId, systemPrompt, prompt⟩])
  | .anthropic =>
      (svc .anthropic settings.anthropicApiKey modelId systemPrompt prompt,
       [⟨.anthropic, settings.anthropicApiKey, modelId, systemPrompt, prompt⟩])
  | .claude => (.ok "", [])

/-- The outcome of the provider call of one processCommand turn, together
with the outbound calls it issued. -/
def turnResult (svc : AIServiceOracle) (settings : PluginSettings)
    (st : TerminalState) (read : String → String) (input : String) :
    CallResult × List ProviderCall :=
  let tp := turnParams settings st input
  dispatchProvider svc settings tp.provider tp.modelId tp.systemPrompt
    (fullPromptOf settings st read input)

/-- TerminalView.processCommand: append the Generating placeholder, run the
dispatched provider call, then pop the last history entry and append either
the ai turn with the response or a system turn with the error message. -/
def processCommand (svc : AIServiceOracle) (settings : PluginSettings)
    (st : TerminalState) (read : String → String) (input : String) :
    TerminalState × List ProviderCall :=
  let rc := turnResult svc settings st read input
  let hist1 := st.chatHistory ++ [⟨.system, "Generating..."⟩]
  let hist2 :=
    match rc.1 with
    | .ok s => hist1.dropLast ++ [⟨.ai, s⟩]
    | .err m => hist1.dropLast ++ [⟨.system, "Error: " ++ m⟩]
  ({ st with chatHistory := hist2 }, rc.2)

/-- The sendMessage handler of initializeInputArea: trim the input, return
silently when nothing is left, otherwise append the user turn and run
processCommand on the trimmed text. -/
def sendMessage (svc : AIServiceOracle) (settings : PluginSettings)
    (st : TerminalState) (read : String → String) (input : String) :
    TerminalState × List ProviderCall :=
  let text := jsTrim input
  if text = "" then (st, [])
  else
    processCommand svc settings
      { st with chatHistory := st.chatHistory ++ [⟨.user, text⟩] } read text

/-- TerminalView.attachActiveNote: when the active file is a markdown file
and no file attachment with its path exists yet, append it as an individual
attachment; otherwise leave the attachments unchanged. -/
def attachActiveNote (st : TerminalState) (active : Option TFile) :
    TerminalState :=
  match active with
  | none => st
  | some f =>
    if f.extension = "md" then
      if st.attachments.any (fun a => a.type == .file && a.path == f.path) then st
      else
        { st with attachments := st.attachments ++
            [⟨.file, f.basename, f.path, [f], 1⟩] }
    else st

/-! ## Response-to-note materialisation: createNoteFromResponse

The title derivation of createNoteFromResponse uses four JavaScript regular
expressions; the helpers below implement exactly their matching semantics on
character lists:

* the frontmatter block regex anchored at the start with a lazy body,
  taking the shortest body followed by a newline and three dashes;
* the title regex, searched left to right, with a greedy backtracking
  whitespace run, an optional opening quote, and a mandatory non-empty run
  of characters that are neither a quote nor a newline;
* the multiline heading regex, tried at every line start, with a greedy
  backtracking whitespace run and a mandatory non-empty run of non-newline
  characters reaching the end of its line;
* the trailing eight-digit test and the two character-class replacements,
  which are simple pointwise operations.
-/

/-- The index of the first occurrence of pat as a contiguous sublist. -/
def firstSubIdx (pat : List Char) : List Char → Option Nat
  | [] => if pat.isEmpty then some 0 else none
  | c :: tl =>
    if pat.isPrefixOf (c :: tl) then some 0
    else (firstSubIdx pat tl).map (· + 1)

/-- The group captured by the frontmatter regex: when the text starts with
three dashes and a newline, the shortest following body that is terminated
by a newline and three dashes. -/
def yamlBlock (content : List Char) : Option (List Char) :=
  if ("---\n".data).isPrefixOf content then
    match firstSubIdx ("\n---".data) (content.drop 4) with
    | some i => some ((content.drop 4).take i)
    | none => none
  else none

/-- The length of the leading whitespace run. -/
def wsRun (l : List Char) : Nat :=
  (l.takeWhile Char.isWhitespace).length

/-- One attempt of the tail of the title regex after the whitespace run: an
optional opening quote, then a mandatory non-empty run of characters other
than a quote or a newline (when the run after a consumed quote is empty the
regex cannot recover at this position, since the character blocking it is a
quote or newline either way). -/
def titleAttempt (s1 : List Char) : Option (List Char) :=
  match s1 with
  | '"' :: s2 =>
    let cap := s2.takeWhile (fun c => !(c == '"' || c == '\n'))
    if cap.isEmpty then none else some cap
  | _ =>
    let cap := s1.takeWhile (fun c => !(c == '"' || c == '\n'))
    if cap.isEmpty then none else some cap

/-- The greedy backtracking whitespace run of the title regex: try consuming
k whitespace characters, from the longest run downwards. -/
def titleKDescent (rest : List Char) : Nat → Option (List Char)
  | 0 => titleAttempt rest
  | k + 1 =>
    match titleAttempt (rest.drop (k + 1)) with
    | some cap => some cap
    | none => titleKDescent rest k

/-- One attempt of the whole title regex at a fixed position. -/
def matchTitleAt (s : List Char) : Option (List Char) :=
  if ("title:".data).isPrefixOf s then
    let rest := s.drop 6
    titleKDescent rest (wsRun rest)
  else none

/-- The left-to-right search of the title regex over the frontmatter body. -/
def findTitle : List Char → Option (List Char)
  | [] => none
  | c :: tl =>
    match matchTitleAt (c :: tl) with
    | some cap => some cap
    | none => findTitle tl

/-- One attempt of the heading regex at a line start: a hash, a mandatory
greedy backtracking whitespace run, then a mandatory non-empty run of
non-newline characters, which by maximality reaches the end of its line. -/
def headingAttempt (s : List Char) : Option (List Char) :=
  match s with
  | '#' :: rest =>
    let go : Nat → Option (List Char) := fun w =>
      Nat.rec none
        (fun k ih =>
          let cap := (rest.drop (k + 1)).takeWhile (fun c => !(c == '\n'))
          if cap.isEmpty then ih else some cap) w
    go (wsRun rest)
  | _ => none

/-- The multiline search of the heading regex: try each line start. -/
def findHeading : List Char → Option (List Char)
  | [] => none
  | c :: tl =>
    match headingAttempt (c :: tl) with
    | some cap => some cap
    | none =>
      match firstSubIdx ['\n'] (c :: tl) with
      | none => none
      | some i => findHeading (tl.drop i)
termination_by l => l.length
decreasing_by
  simp only [List.length_cons, List.length_drop]
  omega

/-- The trailing eight-digit test of the date-suffix check. -/
def endsWith8Digits (s : String) : Bool :=
  decide (8 ≤ s.data.length) && (s.data.reverse.take 8).all Char.isDigit

/-- The filename sanitiser: every backslash, slash, colon, asterisk,
question mark, quote, angle bracket or pipe becomes a dash. -/
def sanitizeFilename (s : String) : String :=
  ⟨s.data.map (fun c =>
    if c == '\\' || c == '/' || c == ':' || c == '*' || c == '?'
        || c == '"' || c == '<' || c == '>' || c == '|' then '-' else c)⟩

/-- The frontmatter template the else branch wraps a response in. -/
def wrapTemplate (title timeStr content : String) : String :=
  "---\ntitle: \"" ++ title ++ "\"\ntags: []\naliases: []\ncreated: \""
    ++ timeStr ++ "\"\ntype: [\"Note\"]\nstatus: \"ìž‘ì„±ì™„ë£Œ\"\npriority: \"Medium\"\nsource: \"AI Terminal\"\nrelated: []\nkeywords: []\nsummary: \"\"\n---\n\n"
    ++ content

/-- The title derivation and content wrapping of createNoteFromResponse:
the frontmatter title when present, else the first heading, else the first
fifty characters of the first line stripped of hashes, quotes, backslashes
and slashes; the else branch wraps the content in the template and appends
the date to the title; then the date suffix is appended when the title does
not already end in eight digits, and an empty title falls back to a stamped
default. -/
def deriveTitleContent (dateStr timeStr content : String) : String × String :=
  let (noteTitle0, finalContent0) :=
    match yamlBlock content.data with
    | some yaml =>
      (match findTitle yaml with
       | some cap => String.mk (jsTrimL cap)
       | none => "", content)
    | none =>
      let nt :=
        match findHeading content.data with
        | some cap => String.mk (jsTrimL cap)
        | none =>
          String.mk (jsTrimL (((content.data.takeWhile (fun c => !(c == '\n'))).take 50).filter
            (fun c => !(c == '#' || c == '"' || c == '\\' || c == '/'))))
      (nt ++ " " ++ dateStr, wrapTemplate (nt ++ " " ++ dateStr) timeStr content)
  let noteTitle1 :=
    if endsWith8Digits noteTitle0 then noteTitle0 else noteTitle0 ++ " " ++ dateStr
  let noteTitle2 := if noteTitle1 = "" then "AI Response " ++ dateStr else noteTitle1
  (noteTitle2, finalContent0)

/-- The candidate paths the collision loop visits: the full path first, then
the paths with an incrementing numeric suffix. -/
def candidatePath (folderPath base : String) : Nat → String
  | 0 => folderPath ++ base ++ ".md"
  | n + 1 => folderPath ++ base ++ " " ++ toString (n + 1) ++ ".md"

/-- The collision while loop: starting from candidate n, move to the next
candidate while the current one exists in the vault. The source loop is
unbounded and terminates because the vault is finite; the model carries fuel
and is run with enough fuel to visit one more candidate than there are
existing paths. -/
def resolveGo (existing : List String) (folderPath base : String) :
    Nat → Nat → String
  | 0, n => candidatePath folderPath base n
  | fuel + 1, n =>
    if candidatePath folderPath base n ∈ existing then
      resolveGo existing folderPath base fuel (n + 1)
    else candidatePath folderPath base n

/-- The collision resolution of createNoteFromResponse over the set of
existing vault paths. -/
def resolveCollision (existing : List String) (folderPath base : String) :
    String :=
  resolveGo existing folderPath base (existing.length + 1) 0

/-- The pure core of TerminalView.createNoteFromResponse: the final path the
note is created at and the final content written (vault side effects, folder
creation and the notice are external). -/
def createNoteFromResponse (existing : List String)
    (defaultFolder dateStr timeStr content : String) : String × String :=
  let (noteTitle, finalContent) := deriveTitleContent dateStr timeStr content
  let sanitizedTitle := sanitizeFilename noteTitle
  let folderPath := if defaultFolder = "" then "" else defaultFolder ++ "/"
  (resolveCollision existing folderPath sanitizedTitle, finalContent)

/-! ## Concrete fixtures used by witnesses and counterexamples -/

/-- A service oracle that always resolves. -/
def sampleSvc : AIServiceOracle := fun _ _ _ _ _ => .ok "reply"

/-- A service oracle that always throws. -/
def failingSvc : AIServiceOracle := fun _ _ _ _ _ => .err "boom"

/-- A vault read function with fixed content. -/
def sampleRead : String → String := fun _ => "note content"

/-- Plugin settings with the default custom commands. -/
def sampleSettings : PluginSettings :=
  ⟨"gkey", "okey", "ckey", "", DEFAULT_CUSTOM_COMMANDS, []⟩

/-- A fresh session state. -/
def sampleState : TerminalState :=
  ⟨[], [], .gemini, "gemini-2.0-flash-exp"⟩

/-- A markdown file fixture. -/
def fileA : TFile := ⟨"a.md", "A", "md"⟩

/-- A second markdown file fixture. -/
def fileB : TFile := ⟨"b.md", "B", "md"⟩

/-! ## General helper lemmas -/

theorem isPrefixOf_append (l r : List Char) : l.isPrefixOf (l ++ r) = true := by
  induction l with
  | nil => simp [List.isPrefixOf]
  | cons c tl ih => simp [List.isPrefixOf, ih]

theorem takeWhile_append_all (p : Char → Bool) (l r : List Char)
    (h : ∀ c ∈ l, p c = true) :
    (l ++ r).takeWhile p = l ++ r.takeWhile p := by
  induction l with
  | nil => rfl
  | cons c tl ih =>
    simp only [List.cons_append, List.takeWhile_cons]
    rw [h c (List.mem_cons_self c tl), ih fun x hx => h x (List.mem_cons_of_mem c hx)]
    simp

theorem error_ne_generating (m : String) : "Error: " ++ m ≠ "Generating..." := by
  intro h
  have h2 : ("Error: " ++ m).data.head? = ("Generating..." : String).data.head? := by
    rw [h]
  rw [String.data_append] at h2
  simp only [show ("Error: " : String).data = 'E' :: "rror: ".data from rfl,
    List.cons_append, List.head?_cons] at h2
  exact absurd h2 (by decide)

/-! ## C1: success-body extraction for the three providers -/

/-- C1: for each provider, a simulated HTTP success response with the
documented success-body shape makes the gateway call return exactly the
nested vendor text field: candidates[0].content.parts[0].text for gemini
(status 200 and a present candidates[0].content), choices[0].message.content
for openai, and content[0].text for anthropic. -/
theorem C1_success_body_extraction :
    (∀ (apiKey model sp up : String) (t : GoogleRequest → GeminiResponse)
        (c : GeminiCandidate) (cs : List GeminiCandidate)
        (ct : GeminiRespContent) (p : GeminiRespPart) (ps : List GeminiRespPart),
      apiKey ≠ "" →
      (t (googleRequest apiKey model sp up)).status = 200 →
      (t (googleRequest apiKey model sp up)).json.candidates = some (c :: cs) →
      c.content = some ct →
      ct.parts = p :: ps →
      (callGoogle apiKey model sp up t).1 = .ok p.text) ∧
    (∀ (apiKey model sp up : String) (t : OpenAIRequest → OpenAIResponse)
        (c : OpenAIChoice) (cs : List OpenAIChoice),
      apiKey ≠ "" →
      (t (openaiRequest apiKey model sp up)).status < 400 →
      (t (openaiRequest apiKey model sp up)).json.choices = c :: cs →
      (callOpenAI apiKey model sp up t).1 = .ok c.message.content) ∧
    (∀ (apiKey model sp up : String) (t : AnthropicRequest → AnthropicResponse)
        (b : AnthropicBlock) (bs : List AnthropicBlock),
      apiKey ≠ "" →
      (t (anthropicRequest apiKey model sp up)).status < 400 →
      (t (anthropicRequest apiKey model sp up)).json.content = b :: bs →
      (callAnthropic apiKey model sp up t).1 = .ok b.text) := by
  refine ⟨?_, ?_, ?_⟩
  · intro apiKey model sp up t c cs ct p ps hk h200 hcand hct hparts
    simp only [callGoogle, if_neg hk, h200, hcand, hct, hparts]
    simp
  · intro apiKey model sp up t c cs hk hlt hch
    simp only [callOpenAI, if_neg hk, hch]
    rw [if_neg (by omega)]
  · intro apiKey model sp up t b bs hk hlt hco
    simp only [callAnthropic, if_neg hk, hco]
    rw [if_neg (by omega)]

/-- C1 witness: concrete success responses for the three providers. -/
theorem C1_success_body_extraction_witness :
    (callGoogle "k" "m" "s" "u"
        (fun _ => ⟨200, "", ⟨some [⟨some ⟨[⟨"hello"⟩]⟩⟩]⟩⟩)).1 = .ok "hello" ∧
    (callOpenAI "k" "m" "s" "u"
        (fun _ => ⟨200, "", ⟨[⟨⟨"assistant", "hi"⟩⟩]⟩⟩)).1 = .ok "hi" ∧
    (callAnthropic "k" "m" "s" "u"
        (fun _ => ⟨200, "", ⟨[⟨"yo"⟩]⟩⟩)).1 = .ok "yo" :=
  ⟨C1_success_body_extraction.1 "k" "m" "s" "u" _ _ [] _ _ []
      (by decide) rfl rfl rfl rfl,
   C1_success_body_extraction.2.1 "k" "m" "s" "u" _ _ []
      (by decide) (by decide) rfl,
   C1_success_body_extraction.2.2 "k" "m" "s" "u" _ _ []
      (by decide) (by decide) rfl⟩

/-! ## C2: empty api key fails fast with no outbound request -/

/-- C2: for each provider, an empty api key makes the gateway call fail with
the missing-credential error naming the provider, and the list of outbound
HTTP requests issued is empty. -/
theorem C2_missing_credential_fail_fast :
    (∀ (model sp up : String) (t : GoogleRequest → GeminiResponse),
      callGoogle "" model sp up t = (.err "Google API Key is missing", [])) ∧
    (∀ (model sp up : String) (t : OpenAIRequest → OpenAIResponse),
      callOpenAI "" model sp up t = (.err "OpenAI API Key is missing", [])) ∧
    (∀ (model sp up : String) (t : AnthropicRequest → AnthropicResponse),
      callAnthropic "" model sp up t = (.err "Anthropic API Key is missing", [])) := by
  refine ⟨fun _ _ _ _ => ?_, fun _ _ _ _ => ?_, fun _ _ _ _ => ?_⟩ <;>
    simp [callGoogle, callOpenAI, callAnthropic]

/-! ## C7: blank input is rejected silently -/

/-- C7: an input that trims to the empty string creates no turn, issues no
provider call and leaves the session state unchanged. -/
theorem C7_blank_input_noop :
    ∀ (svc : AIServiceOracle) (settings : PluginSettings) (st : TerminalState)
      (read : String → String) (input : String),
    jsTrim input = "" →
    sendMessage svc settings st read input = (st, []) := by
  intro svc settings st read input h
  simp [sendMessage, h]

/-- C7 witness: a whitespace-only input. -/
theorem C7_blank_input_noop_witness :
    jsTrim "   " = "" ∧
    sendMessage sampleSvc sampleSettings sampleState sampleRead "   " =
      (sampleState, []) :=
  ⟨by decide, C7_blank_input_noop sampleSvc sampleSettings sampleState
      sampleRead "   " (by decide)⟩

/-! ## C8: a matched custom command does not change the session defaults -/

/-- C8: when a custom command matches the sent input, the default session
provider and default model after the turn equal their values before it. -/
theorem C8_defaults_unchanged :
    ∀ (svc : AIServiceOracle) (settings : PluginSettings) (st : TerminalState)
      (read : String → String) (input : String) (cmd : CustomCommand),
    findCommandBySlash settings.customCommands (jsTrim input) = some cmd →
    (sendMessage svc settings st read input).1.currentProvider = st.currentProvider ∧
    (sendMessage svc settings st read input).1.currentModel = st.currentModel := by
  intro svc settings st read input cmd _
  by_cases h : jsTrim input = ""
  · simp [sendMessage, h]
  · simp [sendMessage, h, processCommand]

/-- C8 witness: a turn through the default /gemini command. -/
theorem C8_defaults_unchanged_witness :
    (sendMessage sampleSvc sampleSettings sampleState sampleRead
        "/gemini hi").1.currentProvider = sampleState.currentProvider ∧
    (sendMessage sampleSvc sampleSettings sampleState sampleRead
        "/gemini hi").1.currentModel = sampleState.currentModel :=
  C8_defaults_unchanged sampleSvc sampleSettings sampleState sampleRead
    "/gemini hi"
    { id := "1", provider := .gemini, modelId := "gemini-2.5-flash",
      name := "Gemini Flash", command := "/gemini",
      promptTemplate := promptTemplateBasic }
    (by decide)

/-! ## C9: auto-attach is idempotent -/

/-- C9: auto-attaching the active document is idempotent: when a file
attachment with the same path is already present the state is unchanged, and
invoking auto-attach twice in a row for the same document equals invoking it
once. -/
theorem C9_auto_attach_idempotent :
    (∀ (st : TerminalState) (f : TFile),
      (∃ a ∈ st.attachments, a.type = .file ∧ a.path = f.path) →
      attachActiveNote st (some f) = st) ∧
    (∀ (st : TerminalState) (active : Option TFile),
      attachActiveNote (attachActiveNote st active) active =
        attachActiveNote st active) := by
  constructor
  · rintro st f ⟨a, ha, hty, hpath⟩
    have hex : (st.attachments.any
        fun a => a.type == AttachType.file && a.path == f.path) = true :=
      List.any_eq_true.mpr ⟨a, ha, by simp [hty, hpath]⟩
    by_cases hm : f.extension = "md"
    · simp [attachActiveNote, hm, hex]
    · simp [attachActiveNote, hm]
  · intro st active
    cases active with
    | none => rfl
    | some f =>
      by_cases hm : f.extension = "md"
      · by_cases hex : (st.attachments.any
            fun a => a.type == AttachType.file && a.path == f.path) = true
        · simp [attachActiveNote, hm, hex]
        · simp [attachActiveNote, hm, hex]
      · simp [attachActiveNote, hm]

/-- C9 witness: a state already holding the document as a file attachment. -/
theorem C9_auto_attach_idempotent_witness :
    attachActiveNote
      ⟨[⟨.file, "A", "a.md", [fileA], 1⟩], [], .gemini, "m"⟩ (some fileA) =
      ⟨[⟨.file, "A", "a.md", [fileA], 1⟩], [], .gemini, "m"⟩ :=
  C9_auto_attach_idempotent.1 _ fileA
    ⟨⟨.file, "A", "a.md", [fileA], 1⟩, by decide, by decide, by decide⟩

/-! ## C10: a matched command with provider claude matches no dispatch branch -/

/-- C10 counterexample: the claim asserts that all three default custom
commands carry provider claude; in DEFAULT_CUSTOM_COMMANDS only the third
does, the first two carry gemini and openai. -/
theorem C10_counterexample :
    ¬ (∀ cmd ∈ DEFAULT_CUSTOM_COMMANDS, cmd.provider = ProviderTag.claude) := by
  decide

/-- C10 (amended): for every matched custom command whose provider field is
claude (the value carried by the third default custom command; the first two
defaults carry gemini and openai), the dispatch of processCommand matches
none of its gemini/openai/anthropic branches: no provider call is made and
the Generating placeholder is replaced by an assistant turn whose content is
the empty string, not by an error turn. -/
theorem C10_claude_provider_no_dispatch :
    ∀ (svc : AIServiceOracle) (settings : PluginSettings) (st : TerminalState)
      (read : String → String) (input : String) (cmd : CustomCommand),
    findCommandBySlash settings.customCommands input = some cmd →
    cmd.provider = .claude →
    processCommand svc settings st read input =
      ({ st with chatHistory := st.chatHistory ++ [⟨.ai, ""⟩] }, []) := by
  intro svc settings st read input cmd hf hp
  simp only [processCommand, turnResult, turnParams, hf, hp, dispatchProvider]
  simp

/-- C10 witness: the default /claude command. -/
theorem C10_claude_provider_no_dispatch_witness :
    processCommand sampleSvc sampleSettings sampleState sampleRead
        "/claude hi" =
      ({ sampleState with
          chatHistory := sampleState.chatHistory ++ [⟨.ai, ""⟩] }, []) :=
  C10_claude_provider_no_dispatch sampleSvc sampleSettings sampleState
    sampleRead "/claude hi"
    { id := "3", provider := .claude, modelId := "claude-haiku-4-5-20251001",
      name := "Claude Haiku", command := "/claude",
      promptTemplate := promptTemplateBasic }
    (by decide) rfl

/-! ## C4: slash-command selection and trigger stripping -/

/-- The first default custom command, as a named fixture. -/
def geminiDefault : CustomCommand :=
  { id := "1", provider := .gemini, modelId := "gemini-2.5-flash",
    name := "Gemini Flash", command := "/gemini",
    promptTemplate := promptTemplateBasic }

/-- C4 counterexample: on the input consisting of the trigger followed by a
single space, the default /gemini command matches, yet the instruction
forwarded for the turn is the whole raw input, trigger included, because the
stripped remainder trims to the empty string and the code falls back to the
original input; the claim requires the trigger to be stripped. -/
theorem C4_counterexample :
    findCommandBySlash DEFAULT_CUSTOM_COMMANDS "/gemini " = some geminiDefault ∧
    (turnParams sampleSettings sampleState "/gemini ").userMessage = "/gemini " ∧
    jsTrim (jsDrop "/gemini " geminiDefault.command.length) = "" ∧
    ("/gemini " : String) ≠ "" := by
  exact ⟨by decide, by decide, by decide, by decide⟩

/-- C4 (amended): the first command whose trigger followed by a space is a
prefix of the input, or whose trigger equals the input exactly, is selected;
selection substitutes the provider, model and prompt template for
the turn and forwards the trimmed remainder after the trigger as the
instruction whenever that remainder is non-blank, while a blank remainder
forwards the original input unchanged, trigger included; an input identical
to the trigger with no trailing text also matches. -/
theorem C4_slash_command_selection :
    (∀ (cmds : List CustomCommand) (input : String) (cmd : CustomCommand),
      findCommandBySlash cmds input = some cmd →
      matchesCommand cmd input = true ∧
      ∃ pre suf, cmds = pre ++ cmd :: suf ∧
        ∀ c ∈ pre, matchesCommand c input = false) ∧
    (∀ (settings : PluginSettings) (st : TerminalState) (input : String)
        (cmd : CustomCommand),
      findCommandBySlash settings.customCommands input = some cmd →
      turnParams settings st input =
        ⟨cmd.provider, cmd.modelId, cmd.promptTemplate,
         commandUserMessage cmd input⟩) ∧
    (∀ (cmd : CustomCommand) (input : String),
      jsTrim (jsDrop input cmd.command.length) ≠ "" →
      commandUserMessage cmd input = jsTrim (jsDrop input cmd.command.length)) ∧
    (∀ cmd : CustomCommand, matchesCommand cmd cmd.command = true) := by
  refine ⟨?_, ?_, ?_, ?_⟩
  · intro cmds input cmd h
    rw [findCommandBySlash, List.find?_eq_some] at h
    obtain ⟨hp, pre, suf, heq, hall⟩ := h
    exact ⟨hp, pre, suf, heq, fun c hc => by simpa using hall c hc⟩
  · intro settings st input cmd h
    simp only [turnParams, h]
  · intro cmd input h
    simp only [commandUserMessage]
    rw [if_neg h]
  · intro cmd
    simp [matchesCommand]

/-- C4 witness: the default /gemini command on a normal slash input. -/
theorem C4_slash_command_selection_witness :
    matchesCommand geminiDefault "/gemini hi" = true ∧
    turnParams sampleSettings sampleState "/gemini hi" =
      ⟨geminiDefault.provider, geminiDefault.modelId,
       geminiDefault.promptTemplate,
       commandUserMessage geminiDefault "/gemini hi"⟩ ∧
    commandUserMessage geminiDefault "/gemini hi" =
      jsTrim (jsDrop "/gemini hi" geminiDefault.command.length) ∧
    matchesCommand geminiDefault geminiDefault.command = true :=
  ⟨(C4_slash_command_selection.1 DEFAULT_CUSTOM_COMMANDS "/gemini hi"
      geminiDefault (by decide)).1,
   C4_slash_command_selection.2.1 sampleSettings sampleState "/gemini hi"
      geminiDefault (by decide),
   C4_slash_command_selection.2.2.1 geminiDefault "/gemini hi" (by decide),
   C4_slash_command_selection.2.2.2 geminiDefault⟩

/-! ## C5: a failed provider call leaves one error turn and no placeholder -/

theorem turnResult_chatHistory_irrelevant (svc : AIServiceOracle)
    (settings : PluginSettings) (st : TerminalState) (read : String → String)
    (input : String) (h : List ChatMessage) :
    turnResult svc settings { st with chatHistory := h } read input =
      turnResult svc settings st read input := rfl

/-- C5: when the trimmed instruction is non-blank and the dispatched
provider call of the turn fails, the history after sendMessage is the
previous history extended by the user turn and exactly one system turn
carrying the error message, and no Generating placeholder remains anywhere
provided none was present before. -/
theorem C5_failed_call_single_error_turn :
    ∀ (svc : AIServiceOracle) (settings : PluginSettings) (st : TerminalState)
      (read : String → String) (input m : String),
    jsTrim input ≠ "" →
    (turnResult svc settings st read (jsTrim input)).1 = .err m →
    (∀ t ∈ st.chatHistory, ¬(t.role = .system ∧ t.content = "Generating...")) →
    (sendMessage svc settings st read input).1.chatHistory =
      st.chatHistory ++ [⟨.user, jsTrim input⟩, ⟨.system, "Error: " ++ m⟩] ∧
    ∀ t ∈ (sendMessage svc settings st read input).1.chatHistory,
      ¬(t.role = .system ∧ t.content = "Generating...") := by
  intro svc settings st read input m hne herr hclean
  have hsend : sendMessage svc settings st read input =
      processCommand svc settings
        { st with chatHistory := st.chatHistory ++ [⟨.user, jsTrim input⟩] }
        read (jsTrim input) := by
    simp only [sendMessage, if_neg hne]
  have herr1 : (turnResult svc settings
      { st with chatHistory := st.chatHistory ++ [⟨.user, jsTrim input⟩] }
      read (jsTrim input)).1 = .err m := by
    rw [turnResult_chatHistory_irrelevant]; exact herr
  have hh : (sendMessage svc settings st read input).1.chatHistory =
      st.chatHistory ++ [⟨.user, jsTrim input⟩, ⟨.system, "Error: " ++ m⟩] := by
    rw [hsend]
    simp only [processCommand, herr1]
    simp [List.dropLast_concat]
  refine ⟨hh, ?_⟩
  rw [hh]
  intro t ht
  rcases List.mem_append.mp ht with h1 | h2
  · exact hclean t h1
  · rcases List.mem_cons.mp h2 with h3 | h4
    · rintro ⟨hrole, -⟩
      rw [h3] at hrole
      exact Role.noConfusion hrole
    · rintro ⟨-, hcontent⟩
      have h5 : t = ⟨.system, "Error: " ++ m⟩ := by simpa using h4
      rw [h5] at hcontent
      exact error_ne_generating m hcontent

/-- C5 witness: a failing provider call on a fresh session. -/
theorem C5_failed_call_single_error_turn_witness :
    (sendMessage failingSvc sampleSettings sampleState sampleRead
        "hello").1.chatHistory =
      sampleState.chatHistory ++
        [⟨.user, jsTrim "hello"⟩, ⟨.system, "Error: " ++ "boom"⟩] ∧
    ∀ t ∈ (sendMessage failingSvc sampleSettings sampleState sampleRead
        "hello").1.chatHistory,
      ¬(t.role = .system ∧ t.content = "Generating...") :=
  C5_failed_call_single_error_turn failingSvc sampleSettings sampleState
    sampleRead "hello" "boom" (by decide) (by decide) (by decide)

/-! ## C3: composition-time deduplication of attachments by path -/

theorem any_keys (m : List (String × TFile)) (k : String) :
    (m.any fun p => p.1 == k) = true ↔ k ∈ m.map Prod.fst := by
  rw [List.any_eq_true]
  constructor
  · rintro ⟨p, hp, hpk⟩
    exact List.mem_map.mpr ⟨p, hp, beq_iff_eq.mp hpk⟩
  · intro hk
    obtain ⟨p, hp, he⟩ := List.mem_map.mp hk
    exact ⟨p, hp, beq_iff_eq.mpr he⟩

theorem keys_mapSet_pos (m : List (String × TFile)) (k : String) (v : TFile)
    (h : (m.any fun p => p.1 == k) = true) :
    (mapSet m k v).map Prod.fst = m.map Prod.fst := by
  unfold mapSet
  rw [if_pos h, List.map_map]
  apply List.map_congr_left
  intro p _
  by_cases hk : (p.1 == k) = true
  · simp only [Function.comp, hk, if_pos]
    exact (beq_iff_eq.mp hk).symm
  · simp [Function.comp, hk]

theorem keys_mapSet_neg (m : List (String × TFile)) (k : String) (v : TFile)
    (h : ¬ (m.any fun p => p.1 == k) = true) :
    (mapSet m k v).map Prod.fst = m.map Prod.fst ++ [k] := by
  unfold mapSet
  rw [if_neg h, List.map_append]
  rfl

theorem coherent_mapSet (m : List (String × TFile)) (k : String) (v : TFile)
    (hc : ∀ p ∈ m, p.2.path = p.1) (hv : v.path = k) :
    ∀ p ∈ mapSet m k v, p.2.path = p.1 := by
  unfold mapSet
  by_cases h : (m.any fun p => p.1 == k) = true
  · rw [if_pos h]
    intro p hp
    obtain ⟨q, hq, he⟩ := List.mem_map.mp hp
    by_cases hk : (q.1 == k) = true
    · rw [← he]; simp [hk, hv]
    · rw [← he]
      have hb : (if (q.1 == k) = true then (k, v) else q) = q := if_neg hk
      show (if (q.1 == k) = true then (k, v) else q).2.path =
        (if (q.1 == k) = true then (k, v) else q).1
      rw [hb]
      exact hc q hq
  · rw [if_neg h]
    intro p hp
    rcases List.mem_append.mp hp with h1 | h2
    · exact hc p h1
    · have h3 : p = (k, v) := by simpa using h2
      rw [h3]; exact hv

theorem nodup_keys_mapSet (m : List (String × TFile)) (k : String) (v : TFile)
    (h : (m.map Prod.fst).Nodup) :
    ((mapSet m k v).map Prod.fst).Nodup := by
  by_cases ha : (m.any fun p => p.1 == k) = true
  · rw [keys_mapSet_pos m k v ha]; exact h
  · rw [keys_mapSet_neg m k v ha]
    have hk : k ∉ m.map Prod.fst := fun hkm => ha ((any_keys m k).mpr hkm)
    simp [List.nodup_append, h, hk]

theorem mem_keys_mapSet (m : List (String × TFile)) (k : String) (v : TFile)
    (q : String) :
    q ∈ (mapSet m k v).map Prod.fst ↔ q ∈ m.map Prod.fst ∨ q = k := by
  by_cases h : (m.any fun p => p.1 == k) = true
  · rw [keys_mapSet_pos m k v h]
    constructor
    · intro hq; exact Or.inl hq
    · rintro (hq | hq)
      · exact hq
      · rw [hq]; exact (any_keys m k).mp h
  · rw [keys_mapSet_neg m k v h]
    simp

theorem coherent_fill (files : List TFile) :
    ∀ m : List (String × TFile), (∀ p ∈ m, p.2.path = p.1) →
    ∀ p ∈ files.foldl (fun m f => mapSet m f.path f) m, p.2.path = p.1 := by
  induction files with
  | nil => intro m hm; exact hm
  | cons f tl ih =>
    intro m hm
    exact ih _ (coherent_mapSet m f.path f hm rfl)

theorem nodup_fill (files : List TFile) :
    ∀ m : List (String × TFile), (m.map Prod.fst).Nodup →
    ((files.foldl (fun m f => mapSet m f.path f) m).map Prod.fst).Nodup := by
  induction files with
  | nil => intro m hm; exact hm
  | cons f tl ih =>
    intro m hm
    exact ih _ (nodup_keys_mapSet m f.path f hm)

theorem mem_keys_fill (files : List TFile) :
    ∀ (m : List (String × TFile)) (q : String),
    q ∈ (files.foldl (fun m f => mapSet m f.path f) m).map Prod.fst ↔
      q ∈ m.map Prod.fst ∨ ∃ f ∈ files, f.path = q := by
  induction files with
  | nil => simp
  | cons f tl ih =>
    intro m q
    simp only [List.foldl_cons]
    rw [ih, mem_keys_mapSet]
    constructor
    · rintro ((hq | hq) | hq)
      · exact Or.inl hq
      · exact Or.inr ⟨f, List.mem_cons_self f tl, hq.symm⟩
      · obtain ⟨g, hg, hgq⟩ := hq
        exact Or.inr ⟨g, List.mem_cons_of_mem f hg, hgq⟩
    · rintro (hq | ⟨g, hg, hgq⟩)
      · exact Or.inl (Or.inl hq)
      · rcases List.mem_cons.mp hg with h1 | h2
        · rw [h1] at hgq; exact Or.inl (Or.inr hgq.symm)
        · exact Or.inr ⟨g, h2, hgq⟩

theorem coherent_atts (atts : List AttachmentItem) :
    ∀ m : List (String × TFile), (∀ p ∈ m, p.2.path = p.1) →
    ∀ p ∈ atts.foldl
        (fun m att => att.items.foldl (fun m f => mapSet m f.path f) m) m,
      p.2.path = p.1 := by
  induction atts with
  | nil => intro m hm; exact hm
  | cons a tl ih =>
    intro m hm
    exact ih _ (coherent_fill a.items m hm)

theorem nodup_atts (atts : List AttachmentItem) :
    ∀ m : List (String × TFile), (m.map Prod.fst).Nodup →
    ((atts.foldl
        (fun m att => att.items.foldl (fun m f => mapSet m f.path f) m)
        m).map Prod.fst).Nodup := by
  induction atts with
  | nil => intro m hm; exact hm
  | cons a tl ih =>
    intro m hm
    exact ih _ (nodup_fill a.items m hm)

theorem mem_keys_atts (atts : List AttachmentItem) :
    ∀ (m : List (String × TFile)) (q : String),
    q ∈ (atts.foldl
        (fun m att => att.items.foldl (fun m f => mapSet m f.path f) m)
        m).map Prod.fst ↔
      q ∈ m.map Prod.fst ∨ ∃ a ∈ atts, ∃ f ∈ a.items, f.path = q := by
  induction atts with
  | nil => simp
  | cons a tl ih =>
    intro m q
    simp only [List.foldl_cons]
    rw [ih, mem_keys_fill]
    constructor
    · rintro ((hq | hq) | hq)
      · exact Or.inl hq
      · obtain ⟨f, hf, hfq⟩ := hq
        exact Or.inr ⟨a, List.mem_cons_self a tl, f, hf, hfq⟩
      · obtain ⟨b, hb, f, hf, hfq⟩ := hq
        exact Or.inr ⟨b, List.mem_cons_of_mem a hb, f, hf, hfq⟩
    · rintro (hq | ⟨b, hb, f, hf, hfq⟩)
      · exact Or.inl (Or.inl hq)
      · rcases List.mem_cons.mp hb with h1 | h2
        · rw [h1] at hf; exact Or.inl (Or.inr ⟨f, hf, hfq⟩)
        · exact Or.inr ⟨b, h2, f, hf, hfq⟩

theorem countP_snd (m : List (String × TFile)) (p : String)
    (hc : ∀ q ∈ m, q.2.path = q.1) (hn : (m.map Prod.fst).Nodup) :
    (m.map Prod.snd).countP (fun f => f.path == p) =
      if p ∈ m.map Prod.fst then 1 else 0 := by
  rw [List.countP_map]
  have h1 : List.countP ((fun f => f.path == p) ∘ Prod.snd) m =
      List.countP (fun q => q.1 == p) m :=
    List.countP_congr fun x hx => by simp [Function.comp, hc x hx]
  rw [h1]
  have h2 : List.countP (fun q => q.1 == p) m =
      List.count p (m.map Prod.fst) := by
    rw [List.count, List.countP_map]
    rfl
  rw [h2]
  by_cases hp : p ∈ m.map Prod.fst
  · rw [if_pos hp, List.count_eq_one_of_mem hn hp]
  · rw [if_neg hp, List.count_eq_zero_of_not_mem hp]

/-- C3: whenever a document path is referenced by the attachments at all,
even several times across individual and folder-group attachments, exactly
one pinned note with that path survives deduplication, and the composed
context is the concatenation of one block per pinned note. -/
theorem C3_context_dedup_by_path :
    ∀ (read : String → String) (atts : List AttachmentItem) (p : String),
    (∃ a ∈ atts, ∃ f ∈ a.items, f.path = p) →
    (pinnedNotes atts).countP (fun f => f.path == p) = 1 ∧
    contextText read atts =
      String.join ((pinnedNotes atts).map (noteBlock read)) := by
  intro read atts p hex
  constructor
  · unfold pinnedNotes
    have hc := coherent_atts atts [] (by simp)
    have hn := nodup_atts atts [] (by simp)
    have hm : p ∈ (atts.foldl
        (fun m att => att.items.foldl (fun m f => mapSet m f.path f) m)
        []).map Prod.fst :=
      (mem_keys_atts atts [] p).mpr (Or.inr hex)
    rw [countP_snd _ p hc hn, if_pos hm]
  · unfold contextText
    have hj : String.join ((pinnedNotes atts).map (noteBlock read)) =
        ((pinnedNotes atts).map (noteBlock read)).foldl (· ++ ·) "" := rfl
    rw [hj, List.foldl_map]

/-- C3 witness: the same document attached individually and inside a folder
group appears once among the pinned notes. -/
theorem C3_context_dedup_by_path_witness :
    (pinnedNotes [⟨.file, "A", "a.md", [fileA], 1⟩,
        ⟨.folder, "F", "F", [fileA, fileB], 2⟩]).countP
      (fun f => f.path == "a.md") = 1 ∧
    contextText sampleRead [⟨.file, "A", "a.md", [fileA], 1⟩,
        ⟨.folder, "F", "F", [fileA, fileB], 2⟩] =
      String.join ((pinnedNotes [⟨.file, "A", "a.md", [fileA], 1⟩,
        ⟨.folder, "F", "F", [fileA, fileB], 2⟩]).map (noteBlock sampleRead)) :=
  C3_context_dedup_by_path sampleRead
    [⟨.file, "A", "a.md", [fileA], 1⟩, ⟨.folder, "F", "F", [fileA, fileB], 2⟩]
    "a.md" (by decide)

/-! ## C6: title derivation and collision resolution -/

theorem firstSubIdx_boundary (c0 : Char) (p l r : List Char)
    (h : ∀ c ∈ l, c ≠ c0) :
    firstSubIdx (c0 :: p) (l ++ ((c0 :: p) ++ r)) = some l.length := by
  induction l with
  | nil =>
    rw [List.nil_append, List.cons_append]
    simp only [firstSubIdx]
    rw [if_pos (by rw [← List.cons_append]; exact isPrefixOf_append _ _)]
    rfl
  | cons c tl ih =>
    have hc : c ≠ c0 := h c (List.mem_cons_self _ _)
    have hbeq : (c0 == c) = false := beq_eq_false_iff_ne.mpr (Ne.symm hc)
    rw [List.cons_append]
    simp only [firstSubIdx]
    rw [if_neg (by simp [List.isPrefixOf, hbeq]),
      ih fun x hx => h x (List.mem_cons_of_mem c hx)]
    simp

theorem yamlBlock_spec (l r : List Char) (h : ∀ c ∈ l, c ≠ '\n') :
    yamlBlock ("---\n".data ++ (l ++ ("\n---".data ++ r))) = some l := by
  unfold yamlBlock
  rw [if_pos (isPrefixOf_append _ _)]
  have hdrop : ("---\n".data ++ (l ++ ("\n---".data ++ r))).drop 4 =
      l ++ ("\n---".data ++ r) := by
    rw [show (4 : Nat) = ("---\n".data).length from rfl, List.drop_left]
  have hidx : firstSubIdx ("\n---".data) (l ++ ("\n---".data ++ r)) =
      some l.length := by
    rw [show ("\n---" : String).data = '\n' :: "---".data from rfl]
    exact firstSubIdx_boundary '\n' ("---".data) l r h
  rw [hdrop, hidx]
  show some ((l ++ ("\n---".data ++ r)).take l.length) = some l
  rw [List.take_left]

theorem findTitle_quoted (foo r : List Char) (hne : foo ≠ [])
    (h : ∀ c ∈ foo, c ≠ '"' ∧ c ≠ '\n') :
    findTitle ("title: \"".data ++ (foo ++ '"' :: r)) = some foo := by
  have hshape : "title: \"".data ++ (foo ++ '"' :: r) =
      "title:".data ++ (' ' :: '"' :: (foo ++ '"' :: r)) := by
    simp [show ("title: \"" : String).data =
      "title:".data ++ [' ', '"'] from rfl]
  have hcap : (foo ++ '"' :: r).takeWhile
      (fun c => !(c == '"' || c == '\n')) = foo := by
    rw [takeWhile_append_all]
    · simp [List.takeWhile_cons]
    · intro c hcm
      simp [(h c hcm).1, (h c hcm).2]
  have hatt : titleAttempt ('"' :: (foo ++ '"' :: r)) = some foo := by
    simp only [titleAttempt, hcap]
    rw [if_neg fun hcontra => hne (List.isEmpty_iff.mp hcontra)]
  have hdesc : titleKDescent (' ' :: '"' :: (foo ++ '"' :: r)) 1 = some foo := by
    rw [show (1 : Nat) = 0 + 1 from rfl]
    simp only [titleKDescent, List.drop_succ_cons, List.drop_zero, hatt]
  have hws : wsRun (' ' :: '"' :: (foo ++ '"' :: r)) = 1 := by
    simp [wsRun, List.takeWhile_cons]
  have hmt : matchTitleAt ("title: \"".data ++ (foo ++ '"' :: r)) = some foo := by
    unfold matchTitleAt
    rw [if_pos (by rw [hshape]; exact isPrefixOf_append _ _)]
    have hdrop : ("title: \"".data ++ (foo ++ '"' :: r)).drop 6 =
        ' ' :: '"' :: (foo ++ '"' :: r) := by
      rw [hshape, show (6 : Nat) = ("title:".data).length from rfl,
        List.drop_left]
    show titleKDescent (("title: \"".data ++ (foo ++ '"' :: r)).drop 6)
        (wsRun (("title: \"".data ++ (foo ++ '"' :: r)).drop 6)) = some foo
    rw [hdrop, hws, hdesc]
  have hcons : "title: \"".data ++ (foo ++ '"' :: r) =
      't' :: ("itle: \"".data ++ (foo ++ '"' :: r)) := rfl
  rw [hcons]
  simp only [findTitle]
  rw [← hcons, hmt]

theorem resolveGo_spec (existing : List String) (fp base : String) :
    ∀ (fuel n : Nat),
    (∀ i < n, candidatePath fp base i ∈ existing) →
    (∃ j, n ≤ j ∧ j < n + fuel ∧ candidatePath fp base j ∉ existing) →
    ∃ k, resolveGo existing fp base fuel n = candidatePath fp base k ∧
      candidatePath fp base k ∉ existing ∧
      ∀ i < k, candidatePath fp base i ∈ existing := by
  intro fuel
  induction fuel with
  | zero =>
    rintro n _ ⟨j, hj1, hj2, -⟩
    omega
  | succ fuel ih =>
    intro n hpre hex
    by_cases hmem : candidatePath fp base n ∈ existing
    · have hpre2 : ∀ i < n + 1, candidatePath fp base i ∈ existing := by
        intro i hi
        rcases Nat.lt_succ_iff_lt_or_eq.mp hi with h1 | h2
        · exact hpre i h1
        · rw [h2]; exact hmem
      have hex2 : ∃ j, n + 1 ≤ j ∧ j < (n + 1) + fuel ∧
          candidatePath fp base j ∉ existing := by
        obtain ⟨j, hj1, hj2, hj3⟩ := hex
        have hjn : j ≠ n := fun he => hj3 (he ▸ hmem)
        exact ⟨j, by omega, by omega, hj3⟩
      have hrec := ih (n + 1) hpre2 hex2
      simpa [resolveGo, hmem] using hrec
    · exact ⟨n, by simp [resolveGo, hmem], hmem, hpre⟩

/-- C6 counterexample: for the response text with frontmatter title Foo and
an empty vault, the derived path is the sanitized title with the date suffix
appended, not the bare sanitized title the claim predicts. -/
theorem C6_counterexample :
    (createNoteFromResponse [] "" "20260101" "2026-01-01 00:00"
        "---\ntitle: \"Foo\"\n---\nBody").1 = "Foo 20260101.md" ∧
    (createNoteFromResponse [] "" "20260101" "2026-01-01 00:00"
        "---\ntitle: \"Foo\"\n---\nBody").1 ≠ "Foo.md" := by
  exact ⟨by decide, by decide⟩

/-- C6 (amended): for a response text beginning with a frontmatter block
whose title value is foo, the derived filename is foo, trimmed, with a
space and the date stamp appended (unless foo already ends in eight digits),
sanitized; a collision with an existing path is resolved by trying the
candidates with incrementing numeric suffixes 1, 2, 3 and so on until an
unused path is found, and the written content is the response unchanged. -/
theorem C6_derived_filename :
    ∀ (existing : List String) (defaultFolder dateStr timeStr foo tail
        fp base : String),
    foo ≠ "" →
    (∀ c ∈ foo.data, c ≠ '"' ∧ c ≠ '\n') →
    endsWith8Digits (jsTrim foo) = false →
    fp = (if defaultFolder = "" then "" else defaultFolder ++ "/") →
    base = sanitizeFilename (jsTrim foo ++ " " ++ dateStr) →
    (∃ j, j ≤ existing.length ∧ candidatePath fp base j ∉ existing) →
    ∃ k,
      (createNoteFromResponse existing defaultFolder dateStr timeStr
          ("---\ntitle: \"" ++ foo ++ "\"\n---" ++ tail)).1 =
        candidatePath fp base k ∧
      candidatePath fp base k ∉ existing ∧
      (∀ i < k, candidatePath fp base i ∈ existing) ∧
      (createNoteFromResponse existing defaultFolder dateStr timeStr
          ("---\ntitle: \"" ++ foo ++ "\"\n---" ++ tail)).2 =
        "---\ntitle: \"" ++ foo ++ "\"\n---" ++ tail := by
  intro existing defaultFolder dateStr timeStr foo tail fp base
    hne hchars h8 hfp hbase hfree
  subst hfp
  subst hbase
  have hdata : ("---\ntitle: \"" ++ foo ++ "\"\n---" ++ tail).data =
      "---\n".data ++ (("title: \"".data ++ (foo.data ++ '"' :: [])) ++
        ("\n---".data ++ tail.data)) := by
    simp only [String.data_append, List.append_assoc, List.cons_append,
      List.nil_append]
  have hYnl : ∀ c ∈ ("title: \"".data ++ (foo.data ++ '"' :: [])),
      c ≠ '\n' := by
    intro c hcY
    rcases List.mem_append.mp hcY with h1 | h2
    · exact (by decide : ∀ x ∈ ("title: \"" : String).data, x ≠ '\n') c h1
    · rcases List.mem_append.mp h2 with h3 | h4
      · exact (hchars c h3).2
      · have hc : c = '"' := by simpa using h4
        rw [hc]; decide
  have hyaml : yamlBlock ("---\ntitle: \"" ++ foo ++ "\"\n---" ++ tail).data =
      some ("title: \"".data ++ (foo.data ++ '"' :: [])) := by
    rw [hdata]
    exact yamlBlock_spec _ _ hYnl
  have hfoo_ne : foo.data ≠ [] :=
    fun hc => hne (String.ext_iff.mpr (by rw [hc]))
  have hfind : findTitle ("title: \"".data ++ (foo.data ++ '"' :: [])) =
      some foo.data :=
    findTitle_quoted foo.data [] hfoo_ne hchars
  have hnem : jsTrim foo ++ " " ++ dateStr ≠ "" := by
    intro hcontra
    have h0 := congrArg String.data hcontra
    rw [String.data_append, String.data_append,
      show (" " : String).data = [' '] from rfl,
      show ("" : String).data = [] from rfl] at h0
    simp [List.append_eq_nil] at h0
  have hderive : deriveTitleContent dateStr timeStr
      ("---\ntitle: \"" ++ foo ++ "\"\n---" ++ tail) =
      (jsTrim foo ++ " " ++ dateStr,
       "---\ntitle: \"" ++ foo ++ "\"\n---" ++ tail) := by
    unfold deriveTitleContent
    rw [hyaml]
    simp only [hfind]
    rw [show String.mk (jsTrimL foo.data) = jsTrim foo from rfl]
    rw [if_neg fun hcontra => Bool.false_ne_true (h8 ▸ hcontra)]
    rw [if_neg hnem]
  have hmain : createNoteFromResponse existing defaultFolder dateStr timeStr
      ("---\ntitle: \"" ++ foo ++ "\"\n---" ++ tail) =
      (resolveCollision existing
        (if defaultFolder = "" then "" else defaultFolder ++ "/")
        (sanitizeFilename (jsTrim foo ++ " " ++ dateStr)),
       "---\ntitle: \"" ++ foo ++ "\"\n---" ++ tail) := by
    unfold createNoteFromResponse
    rw [hderive]
  obtain ⟨j, hj1, hj2⟩ := hfree
  obtain ⟨k, hk1, hk2, hk3⟩ := resolveGo_spec existing
    (if defaultFolder = "" then "" else defaultFolder ++ "/")
    (sanitizeFilename (jsTrim foo ++ " " ++ dateStr))
    (existing.length + 1) 0 (by omega)
    ⟨j, Nat.zero_le j, by omega, hj2⟩
  refine ⟨k, ?_, hk2, hk3, ?_⟩
  · rw [hmain]
    exact hk1
  · rw [hmain]

/-- C6 witness: title Foo, two colliding paths, resolved at suffix 2. -/
theorem C6_derived_filename_witness :
    ∃ k,
      (createNoteFromResponse ["Foo 20260101.md", "Foo 20260101 1.md"] ""
          "20260101" "2026-01-01 00:00"
          ("---\ntitle: \"" ++ "Foo" ++ "\"\n---" ++ "\nBody")).1 =
        candidatePath "" (sanitizeFilename (jsTrim "Foo" ++ " " ++ "20260101")) k ∧
      candidatePath "" (sanitizeFilename (jsTrim "Foo" ++ " " ++ "20260101")) k ∉
        ["Foo 20260101.md", "Foo 20260101 1.md"] ∧
      (∀ i < k, candidatePath ""
          (sanitizeFilename (jsTrim "Foo" ++ " " ++ "20260101")) i ∈
        ["Foo 20260101.md", "Foo 20260101 1.md"]) ∧
      (createNoteFromResponse ["Foo 20260101.md", "Foo 20260101 1.md"] ""
          "20260101" "2026-01-01 00:00"
          ("---\ntitle: \"" ++ "Foo" ++ "\"\n---" ++ "\nBody")).2 =
        "---\ntitle: \"" ++ "Foo" ++ "\"\n---" ++ "\nBody" :=
  C6_derived_filename ["Foo 20260101.md", "Foo 20260101 1.md"] ""
    "20260101" "2026-01-01 00:00" "Foo" "\nBody" ""
    (sanitizeFilename (jsTrim "Foo" ++ " " ++ "20260101"))
    (by decide) (by decide) (by decide) (by decide) rfl
    ⟨2, by decide, by decide⟩

end ObsidianAITerminal
